import Mathlib
/-!
Shallow embedding of the persistence layer of the book_library repository
(file src/database/db.py). The relational store is modelled as lists of
rows; sqlite constraint behaviour (PRIMARY KEY, UNIQUE, NOT NULL,
INSERT OR IGNORE) is modelled explicitly at each statement. The uuid4
generator is modelled as an explicit stream of identifiers consumed by the
operations, and storage-level faults as an explicit schedule of booleans,
one consumed per executed SQL statement (true means the statement raises).
A transaction rollback restores the state at the start of the operation,
since the code commits only at the end of each operation.
-/

/-- Characters removed by the Python method str.strip (ASCII whitespace). -/
def isPySpace (c : Char) : Bool :=
  c = ' ' || c = '\t' || c = '\n' || c = '\r' || c = '\x0b' || c = '\x0c'

/-- Remove leading and trailing whitespace from a list of characters. -/
def stripChars (l : List Char) : List Char :=
  ((l.dropWhile isPySpace).reverse.dropWhile isPySpace).reverse

/-- Model of the Python method str.strip on strings. -/
def pyStrip (s : String) : String := String.mk (stripChars s.data)

/-- Input record consumed by add_book (models GoogleBookSlimResponse from
src/models/google_books.py; isbn is a required field, the rest optional). -/
structure GoogleBookSlimResponse where
  kind : Option String
  title : Option String
  authors : Option (List String)
  publisher : Option String
  published_date : Option String
  description : Option String
  page_count : Option Int
  categories : Option (List String)
  print_type : Option String
  language : Option String
  info_link : Option String
  small_thumbnail : Option String
  isbn : String
deriving DecidableEq

/-- A row of the books table (id PRIMARY KEY, title NOT NULL,
isbn UNIQUE NOT NULL). -/
structure BookRow where
  id : String
  title : String
  publisher : Option String
  publishedDate : Option String
  description : Option String
  pageCount : Option Int
  printType : Option String
  language : Option String
  infoLink : Option String
  smallThumbnail : Option String
  isbn : String
deriving DecidableEq

/-- A row of the authors table (id PRIMARY KEY, name NOT NULL UNIQUE). -/
structure AuthorRow where
  id : String
  name : String
  birth_date : Option String
  death_date : Option String
  nationality : Option String
  sex : Option String
  bio : Option String
  author_link : Option String
deriving DecidableEq

/-- A row of the categories table (id PRIMARY KEY, name NOT NULL UNIQUE). -/
structure CategoryRow where
  id : String
  name : String
deriving DecidableEq

/-- The database state: the five tables touched by the import and
enrichment paths, each as a list of rows in insertion order. -/
structure DBState where
  books : List BookRow
  authors : List AuthorRow
  categories : List CategoryRow
  book_authors : List (String × String)
  book_categories : List (String × String)
deriving DecidableEq

/-- The empty database produced by create_tables. -/
def DBState.empty : DBState := ⟨[], [], [], [], []⟩

/-- Draw the next identifier from the uuid4 stream. -/
def popId : List String → String × List String
  | [] => ("", [])
  | x :: xs => (x, xs)

/-- Consume one entry of the fault schedule; true means the next SQL
statement raises a storage error. An exhausted schedule never faults. -/
def takeFault : List Bool → Bool × List Bool
  | [] => (false, [])
  | b :: r => (b, r)

/-- INSERT OR IGNORE into a link table with a composite primary key:
a duplicate pair is silently skipped. -/
def insertPair (links : List (String × String)) (k : String × String) :
    List (String × String) :=
  if k ∈ links then links else links ++ [k]

/-- Build the books row inserted by _insert_book. -/
def mkBookRow (book_id : String) (t : String) (book : GoogleBookSlimResponse) :
    BookRow :=
  ⟨book_id, t, book.publisher, book.published_date, book.description,
   book.page_count, book.print_type, book.language, book.info_link,
   book.small_thumbnail, book.isbn⟩

/-- _insert_book: INSERT OR IGNORE INTO books. The row is skipped when the
title is NULL (NOT NULL constraint) or a row with the same id or the same
isbn already exists (PRIMARY KEY and UNIQUE constraints). -/
def insert_book (st : DBState) (book_id : String) (book : GoogleBookSlimResponse) :
    DBState :=
  match book.title with
  | none => st
  | some t =>
    if st.books.any (fun b => b.id == book_id || b.isbn == book.isbn) then st
    else { st with books := st.books ++ [mkBookRow book_id t book] }

/-- The per-author loop body of _handle_authors: strip the name, look it up,
reuse or insert the author row, then link it to the book with
INSERT OR IGNORE. -/
def authorsLoop (book_id : String) :
    DBState → List Bool → List String → List String →
    Except Unit (DBState × List Bool × List String)
  | st, faults, ids, [] => .ok (st, faults, ids)
  | st, faults, ids, original_name :: rest =>
    let clean_name := pyStrip original_name
    let s1 := takeFault faults
    if s1.1 then .error () else
    match st.authors.find? (fun a => a.name == clean_name) with
    | some row =>
      let s2 := takeFault s1.2
      if s2.1 then .error () else
      authorsLoop book_id
        { st with book_authors := insertPair st.book_authors (book_id, row.id) }
        s2.2 ids rest
    | none =>
      let p := popId ids
      let s2 := takeFault s1.2
      if s2.1 then .error () else
      if st.authors.any (fun a => a.id == p.1 || a.name == clean_name) then
        .error ()
      else
        let st' : DBState :=
          { st with authors :=
              st.authors ++ [⟨p.1, clean_name, none, none, none, none, none, none⟩] }
        let s3 := takeFault s2.2
        if s3.1 then .error () else
        authorsLoop book_id
          { st' with book_authors := insertPair st'.book_authors (book_id, p.1) }
          s3.2 p.2 rest

/-- _handle_authors: no-op on a missing or empty list, else run the loop. -/
def handle_authors (st : DBState) (faults : List Bool) (ids : List String)
    (book_id : String) (authors : Option (List String)) :
    Except Unit (DBState × List Bool × List String) :=
  match authors with
  | none => .ok (st, faults, ids)
  | some [] => .ok (st, faults, ids)
  | some names => authorsLoop book_id st faults ids names

/-- The per-category loop body of _handle_categories: look the name up
verbatim (no strip), reuse or insert the category row, then link it. -/
def categoriesLoop (book_id : String) :
    DBState → List Bool → List String → List String →
    Except Unit (DBState × List Bool × List String)
  | st, faults, ids, [] => .ok (st, faults, ids)
  | st, faults, ids, category_name :: rest =>
    let s1 := takeFault faults
    if s1.1 then .error () else
    match st.categories.find? (fun c => c.name == category_name) with
    | some row =>
      let s2 := takeFault s1.2
      if s2.1 then .error () else
      categoriesLoop book_id
        { st with book_categories := insertPair st.book_categories (book_id, row.id) }
        s2.2 ids rest
    | none =>
      let p := popId ids
      let s2 := takeFault s1.2
      if s2.1 then .error () else
      if st.categories.any (fun c => c.id == p.1 || c.name == category_name) then
        .error ()
      else
        let st' : DBState :=
          { st with categories := st.categories ++ [⟨p.1, category_name⟩] }
        let s3 := takeFault s2.2
        if s3.1 then .error () else
        categoriesLoop book_id
          { st' with book_categories := insertPair st'.book_categories (book_id, p.1) }
          s3.2 p.2 rest

/-- _handle_categories: no-op on a missing or empty list, else run the loop. -/
def handle_categories (st : DBState) (faults : List Bool) (ids : List String)
    (book_id : String) (categories : Option (List String)) :
    Except Unit (DBState × List Bool × List String) :=
  match categories with
  | none => .ok (st, faults, ids)
  | some [] => .ok (st, faults, ids)
  | some names => categoriesLoop book_id st faults ids names

/-- Python truthiness of the title field: None and the empty string are
falsy, so add_book rejects both. -/
def titleFalsy : Option String → Bool
  | none => true
  | some s => s == ""

/-- add_book: reject an absent or empty title before any write; otherwise
draw a fresh book id, insert the book row (INSERT OR IGNORE), handle the
author and category links, and commit. Any storage error rolls the whole
transaction back to the starting state and the call returns none. -/
def add_book (st : DBState) (faults : List Bool) (ids : List String)
    (book : GoogleBookSlimResponse) : DBState × Option String :=
  if titleFalsy book.title then (st, none)
  else
    let p := popId ids
    let s1 := takeFault faults
    if s1.1 then (st, none)
    else
      let st1 := insert_book st p.1 book
      match handle_authors st1 s1.2 p.2 p.1 book.authors with
      | .error _ => (st, none)
      | .ok (st2, faults2, ids2) =>
        match handle_categories st2 faults2 ids2 p.1 book.categories with
        | .error _ => (st, none)
        | .ok (st3, _, _) => (st3, some p.1)

/-- _find_existing_author: look the author up by id, then by name. A NULL
name matches no row (SQL equality with NULL). -/
def find_existing_author (st : DBState) (author_id : String) (name : Option String) :
    Option String :=
  match st.authors.find? (fun a => a.id == author_id) with
  | some row => some row.id
  | none =>
    match name with
    | none => none
    | some n =>
      match st.authors.find? (fun a => a.name == n) with
      | some row => some row.id
      | none => none

/-- One column of the UPDATE statement built by _update_author: a column is
included in the SET clause only when the supplied value is not None. -/
def mergeField (supplied old : Option String) : Option String :=
  match supplied with
  | none => old
  | some v => some v

/-- Whether the UPDATE of _update_author would violate the UNIQUE
constraint on authors.name: it does exactly when a row with the target id
exists and a different row already carries the new name. -/
def nameUpdateViolation (st : DBState) (author_id : String) (name : Option String) :
    Bool :=
  match name with
  | none => false
  | some n =>
    (st.authors.any fun a => a.id == author_id) &&
    (st.authors.any fun a => a.id != author_id && a.name == n)

/-- The row produced by applying the SET clause of _update_author to one
matching authors row. -/
def applyUpdate (a : AuthorRow)
    (name birth_date death_date nationality sex summary author_link : Option String) :
    AuthorRow :=
  { a with
    name := match name with | none => a.name | some v => v
    birth_date := mergeField birth_date a.birth_date
    death_date := mergeField death_date a.death_date
    nationality := mergeField nationality a.nationality
    sex := mergeField sex a.sex
    bio := mergeField summary a.bio
    author_link := mergeField author_link a.author_link }

/-- _update_author: keep only the supplied (non-None) fields; when none
remain the statement is skipped entirely; otherwise UPDATE every row whose
id matches, raising on a UNIQUE(name) violation. -/
def update_author (st : DBState) (author_id : String)
    (name birth_date death_date nationality sex summary author_link : Option String) :
    Except Unit DBState :=
  if name.isNone && birth_date.isNone && death_date.isNone &&
     nationality.isNone && sex.isNone && summary.isNone && author_link.isNone then
    .ok st
  else if nameUpdateViolation st author_id name then .error ()
  else
    .ok { st with authors := st.authors.map (fun a =>
      if a.id == author_id then
        applyUpdate a name birth_date death_date nationality sex summary author_link
      else a) }

/-- _insert_new_author: plain INSERT INTO authors; raises on a NULL name
(NOT NULL) or on an id or name collision (PRIMARY KEY, UNIQUE). -/
def insert_new_author (st : DBState) (author_id : String) (name : Option String)
    (birth_date death_date nationality sex summary author_link : Option String) :
    Except Unit DBState :=
  match name with
  | none => .error ()
  | some n =>
    if st.authors.any (fun a => a.id == author_id || a.name == n) then .error ()
    else
      .ok { st with authors := st.authors ++
        [⟨author_id, n, birth_date, death_date, nationality, sex, summary, author_link⟩] }

/-- add_author: substitute a fresh uuid for a falsy id, find an existing
row by id or name and merge into it, else insert a new row; an integrity
error rolls back and returns none. -/
def add_author (st : DBState) (newId : String) (author_id : String)
    (name birth_date death_date nationality sex summary author_link : Option String) :
    DBState × Option String :=
  let aid := if author_id == "" then newId else author_id
  match find_existing_author st aid name with
  | some existing_id =>
    match update_author st existing_id name birth_date death_date nationality sex
        summary author_link with
    | .ok st' => (st', some existing_id)
    | .error _ => (st, none)
  | none =>
    match insert_new_author st aid name birth_date death_date nationality sex
        summary author_link with
    | .ok st' => (st', some aid)
    | .error _ => (st, none)

/-- Number of rows of the books table carrying a given isbn. -/
def countIsbn (books : List BookRow) (i : String) : Nat :=
  (books.filter (fun b => b.isbn == i)).length

/-- A convenient concrete record for tests of the import path. -/
def mkRecord (isbn : String) (title : Option String) (authors : Option (List String))
    (categories : Option (List String)) : GoogleBookSlimResponse :=
  ⟨none, title, authors, none, none, none, none, categories, none, none, none,
   none, isbn⟩

/-- A concrete one-author state used to exercise the enrichment merge. -/
def enrichedState : DBState :=
  ⟨[], [⟨"a1", "Frank Herbert", none, none, some "British", none, none, none⟩],
   [], [], []⟩

/-- A concrete record used to exercise repeated imports of one ISBN. -/
def duneRecord : GoogleBookSlimResponse :=
  mkRecord "123" (some "Dune") (some ["Frank Herbert"]) none

/-- The store after the first import of the Dune record. -/
def afterFirstDune : DBState := (add_book DBState.empty [] ["b1", "a1"] duneRecord).1

/-- The store after a second import of the same ISBN. -/
def afterSecondDune : DBState := (add_book afterFirstDune [] ["b2", "a2"] duneRecord).1

/-- The field-level merge contract: a null supplied value leaves the stored
value untouched, and a non-null stored value never becomes null. -/
def fieldMerged (s old new : Option String) : Prop :=
  (s = none → new = old) ∧ (old ≠ none → new ≠ none)

/-- The row-level merge contract relating an authors row before and after
one enrichment call: the id is stable, a null supplied value leaves the
stored field untouched, and a non-null stored field never becomes null. -/
def mergedRow (a a' : AuthorRow) (name bd dd na sx sm lk : Option String) : Prop :=
  a'.id = a.id ∧ (name = none → a'.name = a.name) ∧
  fieldMerged bd a.birth_date a'.birth_date ∧
  fieldMerged dd a.death_date a'.death_date ∧
  fieldMerged na a.nationality a'.nationality ∧
  fieldMerged sx a.sex a'.sex ∧
  fieldMerged sm a.bio a'.bio ∧
  fieldMerged lk a.author_link a'.author_link

/-- The one-author row of enrichedState, and its enrichment with a birth
date, used as concrete witnesses. -/
def fhRow : AuthorRow :=
  ⟨"a1", "Frank Herbert", none, none, some "British", none, none, none⟩

def fhRowWithBirth : AuthorRow :=
  ⟨"a1", "Frank Herbert", some "1920", none, some "British", none, none, none⟩

def enrichedStateWithBirth : DBState := ⟨[], [fhRowWithBirth], [], [], []⟩

/-- The deduplication invariant of the authors table: every stored name is
already trimmed, and no two rows share a name. -/
def authorsInv (st : DBState) : Prop :=
  (∀ a ∈ st.authors, pyStrip a.name = a.name) ∧
  List.Pairwise (fun a b => a.name ≠ b.name) st.authors

/-- The one-author store produced by importing the name Jane Doe. -/
def janeState : DBState :=
  ⟨[], [⟨"a1", "Jane Doe", none, none, none, none, none, none⟩], [],
   [("b1", "a1")], []⟩

/-- The one-category store produced by importing the category Sci-Fi. -/
def scifiState : DBState :=
  ⟨[], [], [⟨"c1", "Sci-Fi"⟩], [], [("b1", "c1")]⟩

/-- Claim C9: a record whose title is missing or empty is rejected by
add_book before any write: the call returns none and every table is left
unchanged. -/
theorem add_book_empty_title_rejected (st : DBState) (faults : List Bool)
    (ids : List String) (book : GoogleBookSlimResponse)
    (h : book.title = none ∨ book.title = some "") :
    add_book st faults ids book = (st, none) := by
  rcases h with h | h <;> simp [add_book, titleFalsy, h]

/-- Witness for C9 at a concrete empty-titled record. -/
theorem add_book_empty_title_rejected_witness :
    add_book DBState.empty [] ["b1"] (mkRecord "1" (some "") none none) =
      (DBState.empty, none) :=
  add_book_empty_title_rejected DBState.empty [] ["b1"]
    (mkRecord "1" (some "") none none) (Or.inr rfl)

/-- Claim C8: importing the Dune record with a duplicated author name into
an empty store yields exactly one book row, one author row named
Frank Herbert, one category row named Sci-Fi, one book-author link and one
book-category link, and the call succeeds. -/
theorem add_book_dune_end_to_end :
    (add_book DBState.empty [] ["b1", "a1", "c1"]
      (mkRecord "123" (some "Dune") (some ["Frank Herbert", "Frank Herbert"])
        (some ["Sci-Fi"]))).2 = some "b1" ∧
    (add_book DBState.empty [] ["b1", "a1", "c1"]
      (mkRecord "123" (some "Dune") (some ["Frank Herbert", "Frank Herbert"])
        (some ["Sci-Fi"]))).1 =
    ⟨[mkBookRow "b1" "Dune" (mkRecord "123" (some "Dune")
        (some ["Frank Herbert", "Frank Herbert"]) (some ["Sci-Fi"]))],
     [⟨"a1", "Frank Herbert", none, none, none, none, none, none⟩],
     [⟨"c1", "Sci-Fi"⟩], [("b1", "a1")], [("b1", "c1")]⟩ := by
  decide

/-- Counterexample to claim C1: the stored nationality is non-null, yet the
merge replaces it with the newly supplied value, so a currently non-null
field IS modified by add_author. -/
theorem add_author_overwrites_nonnull_counterexample :
    add_author enrichedState "u0" "a1" (some "Frank Herbert") none none
      (some "Irish") none none none =
    (⟨[], [⟨"a1", "Frank Herbert", none, none, some "Irish", none, none, none⟩],
      [], [], []⟩, some "a1") ∧
    (⟨"a1", "Frank Herbert", none, none, some "British", none, none,
      none⟩ : AuthorRow).nationality ≠ none := by
  decide

/-- Counterexample to claim C2: the author id a1 resolves to no existing
row (the store is empty), yet add_author does not fail: it inserts a brand
new author row and returns the id. -/
theorem add_author_creates_author_counterexample :
    add_author DBState.empty "u0" "a1" (some "New Author") none none none none
      none none =
    (⟨[], [⟨"a1", "New Author", none, none, none, none, none, none⟩], [], [], []⟩,
     some "a1") ∧
    find_existing_author DBState.empty "a1" (some "New Author") = none := by
  decide

/-- Counterexample to claim C3: two imported category names that are equal
after trimming produce two distinct category rows, because category names
are looked up and stored verbatim, without trimming. -/
theorem categories_not_trimmed_counterexample :
    ((add_book (add_book DBState.empty [] ["b1", "c1"]
        (mkRecord "1" (some "T1") none (some [" Sci-Fi "]))).1
      [] ["b2", "c2"] (mkRecord "2" (some "T2") none (some ["Sci-Fi"]))).1).categories =
      [⟨"c1", " Sci-Fi "⟩, ⟨"c2", "Sci-Fi"⟩] ∧
    pyStrip " Sci-Fi " = pyStrip "Sci-Fi" := by
  decide

/-- Counterexample to claim C5: calling add_book twice with the same ISBN
leaves exactly one book row with that ISBN, but the second call is NOT a
no-op: it appends a new book-author link under a fresh id. -/
theorem second_add_book_not_noop_counterexample :
    countIsbn afterSecondDune.books "123" = 1 ∧
    afterSecondDune.book_authors = [("b1", "a1"), ("b2", "a1")] ∧
    afterSecondDune ≠ afterFirstDune := by
  decide

/-- Counterexample to claim C7: an author name that is empty after trimming
is not rejected; the import succeeds and inserts an author row whose name
is the empty string. -/
theorem empty_name_not_rejected_counterexample :
    add_book DBState.empty [] ["b1", "a1"]
      (mkRecord "9" (some "T") (some ["   "]) none) =
    (⟨[mkBookRow "b1" "T" (mkRecord "9" (some "T") (some ["   "]) none)],
      [⟨"a1", "", none, none, none, none, none, none⟩], [], [("b1", "a1")], []⟩,
     some "b1") ∧ pyStrip "   " = "" := by
  decide

theorem fieldMerged_mergeField (s old : Option String) :
    fieldMerged s old (mergeField s old) := by
  cases s <;> simp [fieldMerged, mergeField]

theorem fieldMerged_self (s old : Option String) : fieldMerged s old old :=
  ⟨fun _ => rfl, fun h => h⟩

theorem mergedRow_self (a : AuthorRow) (name bd dd na sx sm lk : Option String) :
    mergedRow a a name bd dd na sx sm lk :=
  ⟨rfl, fun _ => rfl, fieldMerged_self bd _, fieldMerged_self dd _,
   fieldMerged_self na _, fieldMerged_self sx _, fieldMerged_self sm _,
   fieldMerged_self lk _⟩

theorem mergedRow_applyUpdate (a : AuthorRow)
    (name bd dd na sx sm lk : Option String) :
    mergedRow a (applyUpdate a name bd dd na sx sm lk) name bd dd na sx sm lk := by
  refine ⟨rfl, ?_, fieldMerged_mergeField bd _, fieldMerged_mergeField dd _,
    fieldMerged_mergeField na _, fieldMerged_mergeField sx _,
    fieldMerged_mergeField sm _, fieldMerged_mergeField lk _⟩
  intro h
  subst h
  rfl

theorem applyUpdate_all_none (a : AuthorRow) :
    applyUpdate a none none none none none none none = a := by
  simp [applyUpdate, mergeField]

/-- Inversion of a successful UPDATE of _update_author: the other four
tables are untouched and the authors table is mapped row-wise, applying the
SET clause exactly to the rows whose id matches. -/
theorem update_author_ok (st : DBState) (author_id : String)
    (name bd dd na sx sm lk : Option String) (st' : DBState)
    (h : update_author st author_id name bd dd na sx sm lk = .ok st') :
    st'.books = st.books ∧ st'.categories = st.categories ∧
    st'.book_authors = st.book_authors ∧ st'.book_categories = st.book_categories ∧
    st'.authors = st.authors.map (fun a =>
      if a.id == author_id then applyUpdate a name bd dd na sx sm lk else a) := by
  unfold update_author at h
  split at h
  · rename_i hall
    cases h
    simp only [Bool.and_eq_true, Option.isNone_iff_eq_none] at hall
    obtain ⟨⟨⟨⟨⟨⟨h1, h2⟩, h3⟩, h4⟩, h5⟩, h6⟩, h7⟩ := hall
    subst h1; subst h2; subst h3; subst h4; subst h5; subst h6; subst h7
    refine ⟨rfl, rfl, rfl, rfl, ?_⟩
    have : ∀ a : AuthorRow,
        (if a.id == author_id then applyUpdate a none none none none none none none
         else a) = a := by
      intro a
      split <;> simp [applyUpdate_all_none]
    rw [List.map_congr_left fun a _ => this a]
    exact (List.map_id' st.authors).symm
  · split at h
    · cases h
    · cases h
      exact ⟨rfl, rfl, rfl, rfl, rfl⟩

/-- Inversion of a successful INSERT of _insert_new_author: the name was
non-null, no id or name conflict existed, and exactly the one new row was
appended. -/
theorem insert_new_author_ok (st : DBState) (author_id : String)
    (name bd dd na sx sm lk : Option String) (st' : DBState)
    (h : insert_new_author st author_id name bd dd na sx sm lk = .ok st') :
    ∃ n, name = some n ∧
      st' = { st with authors := st.authors ++
        [⟨author_id, n, bd, dd, na, sx, sm, lk⟩] } := by
  unfold insert_new_author at h
  cases name with
  | none => cases h
  | some n =>
    simp only at h
    split at h
    · cases h
    · cases h
      exact ⟨n, rfl, rfl⟩

/-- Claim C1 (amended): the enrichment merge never replaces any stored
field with null and leaves fields supplied as null untouched; however
fields supplied non-null overwrite the stored value, field-by-field, even
when the stored value is non-null. Every row present before the call is
still present at its position with the same id, related to its old value
by the merge contract. -/
theorem add_author_merge_contract (st : DBState) (newId author_id : String)
    (name bd dd na sx sm lk : Option String) (i : Nat) (a : AuthorRow)
    (ha : st.authors[i]? = some a) :
    ∃ a', (add_author st newId author_id name bd dd na sx sm lk).1.authors[i]? =
        some a' ∧ mergedRow a a' name bd dd na sx sm lk := by
  have hlen : i < st.authors.length := by
    rcases List.getElem?_eq_some.mp ha with ⟨h1, -⟩
    exact h1
  unfold add_author
  dsimp only
  split
  · rename_i eid hf
    split
    · rename_i st1 hu
      obtain ⟨-, -, -, -, hA⟩ := update_author_ok st eid name bd dd na sx sm lk st1 hu
      refine ⟨if a.id == eid then applyUpdate a name bd dd na sx sm lk else a, ?_, ?_⟩
      · dsimp only
        rw [hA, List.getElem?_map, ha]
        rfl
      · split
        · exact mergedRow_applyUpdate a name bd dd na sx sm lk
        · exact mergedRow_self a name bd dd na sx sm lk
    · exact ⟨a, ha, mergedRow_self a name bd dd na sx sm lk⟩
  · rename_i hf
    split
    · rename_i st1 hi
      obtain ⟨n, -, hA⟩ := insert_new_author_ok st _ name bd dd na sx sm lk st1 hi
      refine ⟨a, ?_, mergedRow_self a name bd dd na sx sm lk⟩
      dsimp only
      rw [hA]
      dsimp only
      rw [List.getElem?_append_left hlen]
      exact ha
    · exact ⟨a, ha, mergedRow_self a name bd dd na sx sm lk⟩

/-- Witness for C1 on a concrete one-row store: the merge that supplies
only a birth date keeps the id, leaves the non-null nationality non-null
and leaves all null-supplied fields untouched. -/
theorem add_author_merge_contract_witness :
    ∃ a', (add_author enrichedState "u0" "a1" (some "Frank Herbert") (some "1920")
        none none none none none).1.authors[0]? = some a' ∧
      mergedRow ⟨"a1", "Frank Herbert", none, none, some "British", none, none, none⟩
        a' (some "Frank Herbert") (some "1920") none none none none none :=
  add_author_merge_contract enrichedState "u0" "a1" (some "Frank Herbert")
    (some "1920") none none none none none 0
    ⟨"a1", "Frank Herbert", none, none, some "British", none, none, none⟩ rfl

/-- Inversion of a failed lookup of _find_existing_author: no stored row
carries the requested id, and none carries the requested name. -/
theorem find_existing_author_none (st : DBState) (author_id : String) (n : String)
    (h : find_existing_author st author_id (some n) = none) :
    ∀ a ∈ st.authors, a.id ≠ author_id ∧ a.name ≠ n := by
  unfold find_existing_author at h
  cases hid : st.authors.find? (fun a => a.id == author_id) with
  | some r => rw [hid] at h; cases h
  | none =>
    rw [hid] at h
    simp only at h
    cases hn : st.authors.find? (fun a => a.name == n) with
    | some r => rw [hn] at h; cases h
    | none =>
      intro a ha
      have h1 := List.find?_eq_none.mp hid a ha
      have h2 := List.find?_eq_none.mp hn a ha
      simp only [beq_iff_eq] at h1 h2
      exact ⟨h1, h2⟩

/-- Claim C2 (amended): when the author id resolves to no existing row and
the name resolves to no existing row either, add_author does NOT fail:
it inserts a brand-new author row carrying the given id, name and fields,
and returns the given id. The merge component does create authors. -/
theorem add_author_creates_when_unresolved (st : DBState) (newId author_id : String)
    (n : String) (bd dd na sx sm lk : Option String)
    (hne : author_id ≠ "")
    (h : find_existing_author st author_id (some n) = none) :
    add_author st newId author_id (some n) bd dd na sx sm lk =
      ({ st with authors := st.authors ++
          [⟨author_id, n, bd, dd, na, sx, sm, lk⟩] }, some author_id) := by
  have haid : (author_id == "") = false := by simpa using hne
  have hany : st.authors.any (fun a => a.id == author_id || a.name == n) = false := by
    rw [List.any_eq_false]
    intro a ha
    obtain ⟨h1, h2⟩ := find_existing_author_none st author_id n h a ha
    simp [h1, h2]
  unfold add_author
  simp only [haid, Bool.false_eq_true, if_false]
  rw [h]
  unfold insert_new_author
  simp [hany]

/-- Witness for C2 on the empty store: the unresolved id a1 leads to a new
author row, not to a failure. -/
theorem add_author_creates_when_unresolved_witness :
    add_author DBState.empty "u0" "a1" (some "Ada") none none none none none none =
      (⟨[], [⟨"a1", "Ada", none, none, none, none, none, none⟩], [], [], []⟩,
       some "a1") :=
  add_author_creates_when_unresolved DBState.empty "u0" "a1" "Ada" none none none
    none none none (by decide) rfl

/-- Claim C10: fields supplied as null to the enrichment merge leave the
corresponding stored fields unchanged, field-by-field; and a call in which
no supplied field is non-null changes nothing at all while still reporting
success, returning the author id. -/
theorem merge_null_fields_frame_and_noop :
    (∀ (st : DBState) (author_id : String)
        (name bd dd na sx sm lk : Option String) (st' : DBState),
        update_author st author_id name bd dd na sx sm lk = .ok st' →
        ∀ (i : Nat) (a : AuthorRow), st.authors[i]? = some a →
        ∃ a', st'.authors[i]? = some a' ∧
          (name = none → a'.name = a.name) ∧
          (bd = none → a'.birth_date = a.birth_date) ∧
          (dd = none → a'.death_date = a.death_date) ∧
          (na = none → a'.nationality = a.nationality) ∧
          (sx = none → a'.sex = a.sex) ∧
          (sm = none → a'.bio = a.bio) ∧
          (lk = none → a'.author_link = a.author_link)) ∧
    (∀ (st : DBState) (newId author_id : String) (a : AuthorRow),
        a ∈ st.authors → a.id = author_id → author_id ≠ "" →
        add_author st newId author_id none none none none none none none =
          (st, some author_id)) := by
  constructor
  · intro st author_id name bd dd na sx sm lk st' hu i a ha
    obtain ⟨-, -, -, -, hA⟩ := update_author_ok st author_id name bd dd na sx sm lk st' hu
    refine ⟨if a.id == author_id then applyUpdate a name bd dd na sx sm lk else a,
      ?_, ?_⟩
    · rw [hA, List.getElem?_map, ha]
      rfl
    · split
      · exact ⟨fun h => by subst h; rfl, fun h => by subst h; rfl,
          fun h => by subst h; rfl, fun h => by subst h; rfl,
          fun h => by subst h; rfl, fun h => by subst h; rfl,
          fun h => by subst h; rfl⟩
      · exact ⟨fun _ => rfl, fun _ => rfl, fun _ => rfl, fun _ => rfl,
          fun _ => rfl, fun _ => rfl, fun _ => rfl⟩
  · intro st newId author_id a ha hid hne
    have haid : (author_id == "") = false := by simpa using hne
    have hsome : (st.authors.find? (fun x => x.id == author_id)).isSome := by
      rw [List.find?_isSome]
      exact ⟨a, ha, by simp [hid]⟩
    obtain ⟨r, hr⟩ := Option.isSome_iff_exists.mp hsome
    have hrid : r.id = author_id := by simpa using List.find?_some hr
    unfold add_author
    simp only [haid, Bool.false_eq_true, if_false]
    unfold find_existing_author
    rw [hr]
    dsimp only
    unfold update_author
    simp only [Option.isNone_none, Bool.and_self, if_true]
    rw [hrid]

/-- Witness for C10: enriching the one-row store with only a birth date
leaves the name, nationality and all other null-supplied fields untouched,
and the all-null call is a state no-op that returns the author id. -/
theorem merge_null_fields_frame_and_noop_witness :
    (∃ a', enrichedStateWithBirth.authors[0]? = some a' ∧
      ((none : Option String) = none → a'.name = fhRow.name) ∧
      ((some "1920" : Option String) = none → a'.birth_date = fhRow.birth_date) ∧
      ((none : Option String) = none → a'.death_date = fhRow.death_date) ∧
      ((none : Option String) = none → a'.nationality = fhRow.nationality) ∧
      ((none : Option String) = none → a'.sex = fhRow.sex) ∧
      ((none : Option String) = none → a'.bio = fhRow.bio) ∧
      ((none : Option String) = none → a'.author_link = fhRow.author_link)) ∧
    add_author enrichedState "u0" "a1" none none none none none none none =
      (enrichedState, some "a1") :=
  ⟨merge_null_fields_frame_and_noop.1 enrichedState "a1" none (some "1920") none
      none none none none enrichedStateWithBirth rfl 0 fhRow (by decide),
   merge_null_fields_frame_and_noop.2 enrichedState "u0" "a1" fhRow (by decide)
      (by decide) (by decide)⟩

theorem insertPair_append (l : List (String × String)) (k : String × String) :
    ∃ ex, insertPair l k = l ++ ex ∧ ∀ x ∈ ex, x = k := by
  unfold insertPair
  split
  · exact ⟨[], (List.append_nil _).symm, by simp⟩
  · exact ⟨[k], rfl, by simp⟩

theorem mem_insertPair (l : List (String × String)) (k : String × String) :
    k ∈ insertPair l k := by
  unfold insertPair
  split
  · assumption
  · simp

/-- Structure of a successful run of the author loop: the books, categories
and book-category tables are untouched; the authors table only grows, every
new row being named by the trimmed form of one of the processed names; the
book-author table only grows, every new pair belonging to the given book. -/
theorem authorsLoop_shape (book_id : String) (names : List String) (st : DBState)
    (faults : List Bool) (ids : List String) (st' : DBState) (f' : List Bool)
    (i' : List String)
    (h : authorsLoop book_id st faults ids names = .ok (st', f', i')) :
    st'.books = st.books ∧ st'.categories = st.categories ∧
    st'.book_categories = st.book_categories ∧
    (∃ ex, st'.authors = st.authors ++ ex ∧
      ∀ a ∈ ex, ∃ nm ∈ names, a.name = pyStrip nm) ∧
    (∃ ex, st'.book_authors = st.book_authors ++ ex ∧ ∀ pr ∈ ex, pr.1 = book_id) := by
  induction names generalizing st faults ids with
  | nil =>
    rw [authorsLoop] at h
    cases h
    exact ⟨rfl, rfl, rfl, ⟨[], (List.append_nil _).symm, by simp⟩,
      ⟨[], (List.append_nil _).symm, by simp⟩⟩
  | cons n rest ih =>
    rw [authorsLoop] at h
    dsimp only at h
    split at h
    · exact Except.noConfusion h
    · split at h
      · rename_i row hrow
        split at h
        · exact Except.noConfusion h
        · obtain ⟨hb, hc, hbc, ⟨exA, hA, hAn⟩, ⟨exL, hL, hLf⟩⟩ := ih _ _ _ h
          obtain ⟨ex0, he0, hk0⟩ :=
            insertPair_append st.book_authors (book_id, row.id)
          refine ⟨hb, hc, hbc, ⟨exA, hA, ?_⟩, ⟨ex0 ++ exL, ?_, ?_⟩⟩
          · intro a ha
            obtain ⟨nm, hnm, he⟩ := hAn a ha
            exact ⟨nm, List.mem_cons_of_mem _ hnm, he⟩
          · rw [hL]
            dsimp only at he0 ⊢
            rw [he0, List.append_assoc]
          · intro pr hpr
            rcases List.mem_append.mp hpr with hpr | hpr
            · rw [hk0 pr hpr]
            · exact hLf pr hpr
      · split at h
        · exact Except.noConfusion h
        · split at h
          · exact Except.noConfusion h
          · split at h
            · exact Except.noConfusion h
            · obtain ⟨hb, hc, hbc, ⟨exA, hA, hAn⟩, ⟨exL, hL, hLf⟩⟩ := ih _ _ _ h
              obtain ⟨ex0, he0, hk0⟩ :=
                insertPair_append st.book_authors (book_id, (popId ids).1)
              refine ⟨hb, hc, hbc,
                ⟨⟨(popId ids).1, pyStrip n, none, none, none, none, none,
                  none⟩ :: exA, ?_, ?_⟩, ⟨ex0 ++ exL, ?_, ?_⟩⟩
              · rw [hA]
                dsimp only
                rw [List.append_assoc]
                rfl
              · intro a ha
                rcases List.mem_cons.mp ha with ha | ha
                · exact ⟨n, List.mem_cons_self n rest, by rw [ha]⟩
                · obtain ⟨nm, hnm, he⟩ := hAn a ha
                  exact ⟨nm, List.mem_cons_of_mem _ hnm, he⟩
              · rw [hL]
                dsimp only at he0 ⊢
                rw [he0, List.append_assoc]
              · intro pr hpr
                rcases List.mem_append.mp hpr with hpr | hpr
                · rw [hk0 pr hpr]
                · exact hLf pr hpr

/-- Structure of a successful run of the category loop: the books, authors
and book-author tables are untouched; the categories table only grows,
every new row carrying one of the processed names verbatim; the
book-category table only grows, every new pair belonging to the book. -/
theorem categoriesLoop_shape (book_id : String) (names : List String)
    (st : DBState) (faults : List Bool) (ids : List String) (st' : DBState)
    (f' : List Bool) (i' : List String)
    (h : categoriesLoop book_id st faults ids names = .ok (st', f', i')) :
    st'.books = st.books ∧ st'.authors = st.authors ∧
    st'.book_authors = st.book_authors ∧
    (∃ ex, st'.categories = st.categories ++ ex ∧
      ∀ c ∈ ex, c.name ∈ names) ∧
    (∃ ex, st'.book_categories = st.book_categories ++ ex ∧
      ∀ pr ∈ ex, pr.1 = book_id) := by
  induction names generalizing st faults ids with
  | nil =>
    rw [categoriesLoop] at h
    cases h
    exact ⟨rfl, rfl, rfl, ⟨[], (List.append_nil _).symm, by simp⟩,
      ⟨[], (List.append_nil _).symm, by simp⟩⟩
  | cons n rest ih =>
    rw [categoriesLoop] at h
    dsimp only at h
    split at h
    · exact Except.noConfusion h
    · split at h
      · rename_i row hrow
        split at h
        · exact Except.noConfusion h
        · obtain ⟨hb, ha, hba, ⟨exC, hC, hCn⟩, ⟨exL, hL, hLf⟩⟩ := ih _ _ _ h
          obtain ⟨ex0, he0, hk0⟩ :=
            insertPair_append st.book_categories (book_id, row.id)
          refine ⟨hb, ha, hba, ⟨exC, hC, ?_⟩, ⟨ex0 ++ exL, ?_, ?_⟩⟩
          · intro c hc
            exact List.mem_cons_of_mem _ (hCn c hc)
          · rw [hL]
            dsimp only at he0 ⊢
            rw [he0, List.append_assoc]
          · intro pr hpr
            rcases List.mem_append.mp hpr with hpr | hpr
            · rw [hk0 pr hpr]
            · exact hLf pr hpr
      · split at h
        · exact Except.noConfusion h
        · split at h
          · exact Except.noConfusion h
          · split at h
            · exact Except.noConfusion h
            · obtain ⟨hb, ha, hba, ⟨exC, hC, hCn⟩, ⟨exL, hL, hLf⟩⟩ := ih _ _ _ h
              obtain ⟨ex0, he0, hk0⟩ :=
                insertPair_append st.book_categories (book_id, (popId ids).1)
              refine ⟨hb, ha, hba,
                ⟨⟨(popId ids).1, n⟩ :: exC, ?_, ?_⟩, ⟨ex0 ++ exL, ?_, ?_⟩⟩
              · rw [hC]
                dsimp only
                rw [List.append_assoc]
                rfl
              · intro c hc
                rcases List.mem_cons.mp hc with hc | hc
                · rw [hc]
                  exact List.mem_cons_self n rest
                · exact List.mem_cons_of_mem _ (hCn c hc)
              · rw [hL]
                dsimp only at he0 ⊢
                rw [he0, List.append_assoc]
              · intro pr hpr
                rcases List.mem_append.mp hpr with hpr | hpr
                · rw [hk0 pr hpr]
                · exact hLf pr hpr

/-- handle_authors has the same shape as its loop (the no-op cases are
trivial). -/
theorem handle_authors_shape (st : DBState) (faults : List Bool)
    (ids : List String) (book_id : String) (authors : Option (List String))
    (st' : DBState) (f' : List Bool) (i' : List String)
    (h : handle_authors st faults ids book_id authors = .ok (st', f', i')) :
    st'.books = st.books ∧ st'.categories = st.categories ∧
    st'.book_categories = st.book_categories ∧
    (∃ ex, st'.authors = st.authors ++ ex) ∧
    (∃ ex, st'.book_authors = st.book_authors ++ ex ∧ ∀ pr ∈ ex, pr.1 = book_id) := by
  unfold handle_authors at h
  split at h
  · cases h
    exact ⟨rfl, rfl, rfl, ⟨[], (List.append_nil _).symm⟩,
      ⟨[], (List.append_nil _).symm, by simp⟩⟩
  · cases h
    exact ⟨rfl, rfl, rfl, ⟨[], (List.append_nil _).symm⟩,
      ⟨[], (List.append_nil _).symm, by simp⟩⟩
  · obtain ⟨hb, hc, hbc, ⟨exA, hA, -⟩, hl⟩ :=
      authorsLoop_shape book_id _ st faults ids st' f' i' h
    exact ⟨hb, hc, hbc, ⟨exA, hA⟩, hl⟩

/-- handle_categories has the same shape as its loop. -/
theorem handle_categories_shape (st : DBState) (faults : List Bool)
    (ids : List String) (book_id : String) (categories : Option (List String))
    (st' : DBState) (f' : List Bool) (i' : List String)
    (h : handle_categories st faults ids book_id categories = .ok (st', f', i')) :
    st'.books = st.books ∧ st'.authors = st.authors ∧
    st'.book_authors = st.book_authors ∧
    (∃ ex, st'.categories = st.categories ++ ex) ∧
    (∃ ex, st'.book_categories = st.book_categories ++ ex ∧
      ∀ pr ∈ ex, pr.1 = book_id) := by
  unfold handle_categories at h
  split at h
  · cases h
    exact ⟨rfl, rfl, rfl, ⟨[], (List.append_nil _).symm⟩,
      ⟨[], (List.append_nil _).symm, by simp⟩⟩
  · cases h
    exact ⟨rfl, rfl, rfl, ⟨[], (List.append_nil _).symm⟩,
      ⟨[], (List.append_nil _).symm, by simp⟩⟩
  · obtain ⟨hb, ha, hba, ⟨exC, hC, -⟩, hl⟩ :=
      categoriesLoop_shape book_id _ st faults ids st' f' i' h
    exact ⟨hb, ha, hba, ⟨exC, hC⟩, hl⟩

/-- Claim C4: whenever add_book reports failure by returning null, the
whole unit of work has been rolled back: the resulting state is exactly
the pre-call state, so zero rows for that book persist in any table. -/
theorem add_book_failure_rolls_back (st : DBState) (faults : List Bool)
    (ids : List String) (book : GoogleBookSlimResponse) (st' : DBState)
    (h : add_book st faults ids book = (st', none)) :
    st' = st := by
  unfold add_book at h
  dsimp only at h
  split at h
  · simp only [Prod.mk.injEq] at h
    exact h.1.symm
  · split at h
    · simp only [Prod.mk.injEq] at h
      exact h.1.symm
    · split at h
      · simp only [Prod.mk.injEq] at h
        exact h.1.symm
      · split at h
        · simp only [Prod.mk.injEq] at h
          exact h.1.symm
        · simp at h

/-- Witness for C4: a fault injected on the author-lookup statement right
after the book insert makes a concrete import fail and roll back to the
empty store. -/
theorem add_book_failure_rolls_back_witness :
    (add_book DBState.empty [false, true] ["b1", "a1"] duneRecord).1 =
      DBState.empty :=
  add_book_failure_rolls_back DBState.empty [false, true] ["b1", "a1"] duneRecord
    (add_book DBState.empty [false, true] ["b1", "a1"] duneRecord).1 (by decide)

theorem countIsbn_append (l1 l2 : List BookRow) (i : String) :
    countIsbn (l1 ++ l2) i = countIsbn l1 i + countIsbn l2 i := by
  unfold countIsbn
  rw [List.filter_append, List.length_append]

/-- One call to _insert_book leaves at most max(before, 1) rows with a
given isbn: the UNIQUE constraint plus OR IGNORE admit no duplicate. -/
theorem countIsbn_insert_book (st : DBState) (bid : String)
    (book : GoogleBookSlimResponse) (i : String) :
    countIsbn (insert_book st bid book).books i ≤ max (countIsbn st.books i) 1 := by
  unfold insert_book
  split
  · exact le_max_left _ _
  · split
    · exact le_max_left _ _
    · rename_i t ht hany
      dsimp only
      rw [countIsbn_append]
      rw [Bool.not_eq_true, List.any_eq_false] at hany
      by_cases hi : book.isbn = i
      · have h0 : countIsbn st.books i = 0 := by
          unfold countIsbn
          rw [List.length_eq_zero, List.filter_eq_nil_iff]
          intro b hb
          have hbb := hany b hb
          simp only [Bool.or_eq_true, not_or, beq_iff_eq] at hbb
          rw [← hi]
          simp [hbb.2]
        rw [h0]
        have h1 : countIsbn [mkBookRow bid t book] i ≤ 1 := by
          unfold countIsbn
          exact le_trans (List.length_filter_le _ _) (by simp)
        simpa using h1
      · have h1 : countIsbn [mkBookRow bid t book] i = 0 := by
          simp [countIsbn, mkBookRow, hi]
        rw [h1, Nat.add_zero]
        exact le_max_left _ _

/-- One add_book call leaves at most max(before, 1) rows with a given
isbn, whatever happens in the author and category phases. -/
theorem add_book_countIsbn (st : DBState) (faults : List Bool)
    (ids : List String) (book : GoogleBookSlimResponse) (i : String) :
    countIsbn (add_book st faults ids book).1.books i ≤
      max (countIsbn st.books i) 1 := by
  unfold add_book
  dsimp only
  split
  · exact le_max_left _ _
  · split
    · exact le_max_left _ _
    · split
      · exact le_max_left _ _
      · rename_i hha
        split
        · exact le_max_left _ _
        · rename_i hhc
          obtain ⟨hb2, -, -, -, -⟩ :=
            handle_authors_shape _ _ _ _ _ _ _ _ hha
          obtain ⟨hb3, -, -, -, -⟩ :=
            handle_categories_shape _ _ _ _ _ _ _ _ hhc
          dsimp only
          rw [hb3, hb2]
          exact countIsbn_insert_book st (popId ids).1 book i

/-- Claim C5 (amended): starting from a store holding at most one row with
a given isbn, two successive add_book calls still leave at most one row
with that isbn (the books insert is INSERT OR IGNORE against the UNIQUE
isbn constraint). The accompanying counterexample shows the second call is
nevertheless not a no-op on the link tables. -/
theorem isbn_at_most_one_row (st : DBState) (f1 f2 : List Bool)
    (ids1 ids2 : List String) (b1 b2 : GoogleBookSlimResponse) (i : String)
    (h0 : countIsbn st.books i ≤ 1) :
    countIsbn (add_book (add_book st f1 ids1 b1).1 f2 ids2 b2).1.books i ≤ 1 := by
  have h1 := add_book_countIsbn st f1 ids1 b1 i
  have h2 := add_book_countIsbn (add_book st f1 ids1 b1).1 f2 ids2 b2 i
  have hmid : countIsbn (add_book st f1 ids1 b1).1.books i ≤ 1 :=
    le_trans h1 (max_le h0 le_rfl)
  exact le_trans h2 (max_le hmid le_rfl)

/-- Witness for C5 at the concrete double import of the Dune record. -/
theorem isbn_at_most_one_row_witness :
    countIsbn (add_book (add_book DBState.empty [] ["b1", "a1"] duneRecord).1
      [] ["b2", "a2"] duneRecord).1.books "123" ≤ 1 :=
  isbn_at_most_one_row DBState.empty [] [] ["b1", "a1"] ["b2", "a2"] duneRecord
    duneRecord "123" (by decide)

/-- When a row with the same isbn already exists, the OR IGNORE insert
leaves the books table unchanged. -/
theorem insert_book_dup (st : DBState) (bid : String)
    (book : GoogleBookSlimResponse)
    (hdup : ∃ b ∈ st.books, b.isbn = book.isbn) :
    insert_book st bid book = st := by
  unfold insert_book
  split
  · rfl
  · have hany : st.books.any (fun b => b.id == bid || b.isbn == book.isbn) = true := by
      rw [List.any_eq_true]
      obtain ⟨b, hb, hbi⟩ := hdup
      exact ⟨b, hb, by simp [hbi]⟩
    simp [hany]

/-- A successful author loop run over a nonempty list always records at
least one book-author link for the given book id. -/
theorem authorsLoop_link_exists (book_id : String) (n : String)
    (rest : List String) (st : DBState) (faults : List Bool) (ids : List String)
    (st' : DBState) (f' : List Bool) (i' : List String)
    (h : authorsLoop book_id st faults ids (n :: rest) = .ok (st', f', i')) :
    ∃ aid, (book_id, aid) ∈ st'.book_authors := by
  rw [authorsLoop] at h
  dsimp only at h
  split at h
  · exact Except.noConfusion h
  · split at h
    · rename_i row hrow
      split at h
      · exact Except.noConfusion h
      · obtain ⟨-, -, -, -, ⟨exL, hL, -⟩⟩ := authorsLoop_shape _ _ _ _ _ _ _ _ h
        refine ⟨row.id, ?_⟩
        rw [hL]
        exact List.mem_append_left _ (mem_insertPair _ _)
    · split at h
      · exact Except.noConfusion h
      · split at h
        · exact Except.noConfusion h
        · split at h
          · exact Except.noConfusion h
          · obtain ⟨-, -, -, -, ⟨exL, hL, -⟩⟩ :=
              authorsLoop_shape _ _ _ _ _ _ _ _ h
            refine ⟨(popId ids).1, ?_⟩
            rw [hL]
            exact List.mem_append_left _ (mem_insertPair _ _)

/-- A successful category loop run over a nonempty list always records at
least one book-category link for the given book id. -/
theorem categoriesLoop_link_exists (book_id : String) (n : String)
    (rest : List String) (st : DBState) (faults : List Bool) (ids : List String)
    (st' : DBState) (f' : List Bool) (i' : List String)
    (h : categoriesLoop book_id st faults ids (n :: rest) = .ok (st', f', i')) :
    ∃ cid, (book_id, cid) ∈ st'.book_categories := by
  rw [categoriesLoop] at h
  dsimp only at h
  split at h
  · exact Except.noConfusion h
  · split at h
    · rename_i row hrow
      split at h
      · exact Except.noConfusion h
      · obtain ⟨-, -, -, -, ⟨exL, hL, -⟩⟩ :=
          categoriesLoop_shape _ _ _ _ _ _ _ _ h
        refine ⟨row.id, ?_⟩
        rw [hL]
        exact List.mem_append_left _ (mem_insertPair _ _)
    · split at h
      · exact Except.noConfusion h
      · split at h
        · exact Except.noConfusion h
        · split at h
          · exact Except.noConfusion h
          · obtain ⟨-, -, -, -, ⟨exL, hL, -⟩⟩ :=
              categoriesLoop_shape _ _ _ _ _ _ _ _ h
            refine ⟨(popId ids).1, ?_⟩
            rw [hL]
            exact List.mem_append_left _ (mem_insertPair _ _)

/-- Claim C6: a successful add_book call on a record whose ISBN already
exists still returns a fresh id drawn from the uuid stream, leaves the
books table unchanged (so no book row carries the returned id when the
drawn id is fresh), yet records book-author and book-category link rows
that reference the fresh id whenever the lists are nonempty. -/
theorem add_book_duplicate_isbn_dangling_links (st : DBState)
    (faults : List Bool) (ids : List String) (book : GoogleBookSlimResponse)
    (st' : DBState) (rid : String)
    (hdup : ∃ b ∈ st.books, b.isbn = book.isbn)
    (h : add_book st faults ids book = (st', some rid)) :
    rid = (popId ids).1 ∧
    st'.books = st.books ∧
    ((popId ids).1 ∉ st.books.map BookRow.id → ∀ b ∈ st'.books, b.id ≠ rid) ∧
    (∀ n ns, book.authors = some (n :: ns) →
      ∃ aid, (rid, aid) ∈ st'.book_authors) ∧
    (∀ c cs, book.categories = some (c :: cs) →
      ∃ cid, (rid, cid) ∈ st'.book_categories) := by
  unfold add_book at h
  dsimp only at h
  split at h
  · simp at h
  · split at h
    · simp at h
    · split at h
      · simp at h
      · rename_i hha
        split at h
        · simp at h
        · rename_i hhc
          simp only [Prod.mk.injEq] at h
          obtain ⟨hst, hrid⟩ := h
          have hrid' : rid = (popId ids).1 := by
            injection hrid with hh
            exact hh.symm
          obtain ⟨hb2, -, -, -, -⟩ := handle_authors_shape _ _ _ _ _ _ _ _ hha
          obtain ⟨hb3, -, hba3, -, -⟩ := handle_categories_shape _ _ _ _ _ _ _ _ hhc
          have hib : insert_book st (popId ids).1 book = st :=
            insert_book_dup st (popId ids).1 book hdup
          rw [hib] at hb2
          have hbooks : st'.books = st.books := by rw [← hst, hb3, hb2]
          refine ⟨hrid', hbooks, ?_, ?_, ?_⟩
          · intro hfresh b hb hbid
            rw [hbooks] at hb
            exact hfresh (List.mem_map.mpr ⟨b, hb, by rw [hbid, hrid']⟩)
          · intro n ns hns
            rw [hns] at hha
            unfold handle_authors at hha
            obtain ⟨aid, haid⟩ :=
              authorsLoop_link_exists _ _ _ _ _ _ _ _ _ hha
            refine ⟨aid, ?_⟩
            rw [hrid', ← hst, hba3]
            exact haid
          · intro c cs hcs
            rw [hcs] at hhc
            unfold handle_categories at hhc
            obtain ⟨cid, hcid⟩ :=
              categoriesLoop_link_exists _ _ _ _ _ _ _ _ _ hhc
            refine ⟨cid, ?_⟩
            rw [hrid', ← hst]
            exact hcid

/-- Witness for C6: the second import of the Dune record returns the fresh
id b2, keeps the books table at the single original row, and records a
dangling book-author link under b2. -/
theorem add_book_duplicate_isbn_dangling_links_witness :
    "b2" = (popId ["b2", "a2"]).1 ∧
    afterSecondDune.books = afterFirstDune.books ∧
    ((popId ["b2", "a2"]).1 ∉ afterFirstDune.books.map BookRow.id →
      ∀ b ∈ afterSecondDune.books, b.id ≠ "b2") ∧
    (∀ n ns, duneRecord.authors = some (n :: ns) →
      ∃ aid, ("b2", aid) ∈ afterSecondDune.book_authors) ∧
    (∀ c cs, duneRecord.categories = some (c :: cs) →
      ∃ cid, ("b2", cid) ∈ afterSecondDune.book_categories) :=
  add_book_duplicate_isbn_dangling_links afterFirstDune [] ["b2", "a2"]
    duneRecord afterSecondDune "b2" (by decide) (by decide)

/-- Claim C7 (amended): a name that is empty after trimming is not
rejected; a successful import containing it resolves it like any other
name, so afterwards an author row whose name is the empty string exists. -/
theorem empty_name_resolved_as_empty_string (st : DBState) (faults : List Bool)
    (ids : List String) (book_id : String) (n : String) (rest : List String)
    (st' : DBState) (f' : List Bool) (i' : List String)
    (hn : pyStrip n = "")
    (h : handle_authors st faults ids book_id (some (n :: rest)) =
      .ok (st', f', i')) :
    ∃ a ∈ st'.authors, a.name = "" := by
  unfold handle_authors at h
  dsimp only at h
  rw [authorsLoop] at h
  dsimp only at h
  rw [hn] at h
  split at h
  · exact Except.noConfusion h
  · split at h
    · rename_i row hrow
      split at h
      · exact Except.noConfusion h
      · obtain ⟨-, -, -, ⟨exA, hA, -⟩, -⟩ := authorsLoop_shape _ _ _ _ _ _ _ _ h
        have hrowname : row.name = "" := by simpa using List.find?_some hrow
        have hrowmem : row ∈ st.authors := List.mem_of_find?_eq_some hrow
        refine ⟨row, ?_, hrowname⟩
        rw [hA]
        exact List.mem_append_left _ hrowmem
    · split at h
      · exact Except.noConfusion h
      · split at h
        · exact Except.noConfusion h
        · split at h
          · exact Except.noConfusion h
          · obtain ⟨-, -, -, ⟨exA, hA, -⟩, -⟩ :=
              authorsLoop_shape _ _ _ _ _ _ _ _ h
            refine ⟨⟨(popId ids).1, "", none, none, none, none, none, none⟩,
              ?_, rfl⟩
            rw [hA]
            exact List.mem_append_left _ (List.mem_append_right _ (by simp))

/-- Witness for C7: importing the three-space author name yields a stored
author row whose name is empty. -/
theorem empty_name_resolved_as_empty_string_witness :
    ∃ a ∈ (⟨[], [⟨"a1", "", none, none, none, none, none, none⟩], [],
      [("b1", "a1")], []⟩ : DBState).authors, a.name = "" :=
  empty_name_resolved_as_empty_string DBState.empty [] ["a1"] "b1" "   " []
    (⟨[], [⟨"a1", "", none, none, none, none, none, none⟩], [],
      [("b1", "a1")], []⟩ : DBState) [] [] (by decide) rfl

theorem dropWhile_idem {α : Type} (p : α → Bool) (l : List α) :
    (l.dropWhile p).dropWhile p = l.dropWhile p := by
  induction l with
  | nil => rfl
  | cons x xs ih =>
    rw [List.dropWhile_cons]
    split
    · exact ih
    · rename_i hx
      rw [List.dropWhile_cons]
      simp [hx]

theorem dropWhile_fix_of_append {α : Type} (p : α → Bool) (a b : List α)
    (h : (a ++ b).dropWhile p = a ++ b) : a.dropWhile p = a := by
  cases a with
  | nil => rfl
  | cons x xs =>
    rw [List.cons_append, List.dropWhile_cons] at h
    rw [List.dropWhile_cons]
    split at h
    · have hlen := congrArg List.length h
      have hle : (List.dropWhile p (xs ++ b)).length ≤ (xs ++ b).length :=
        (List.dropWhile_sublist p).length_le
      simp only [List.length_append, List.length_cons] at hlen hle
      omega
    · rename_i hx
      simp [hx]

theorem stripChars_idem (l : List Char) : stripChars (stripChars l) = stripChars l := by
  have hufix := dropWhile_idem isPySpace l
  have hpre : l.dropWhile isPySpace =
      ((l.dropWhile isPySpace).reverse.dropWhile isPySpace).reverse ++
      ((l.dropWhile isPySpace).reverse.takeWhile isPySpace).reverse := by
    conv_lhs => rw [← List.reverse_reverse (l.dropWhile isPySpace)]
    rw [← List.reverse_append]
    congr 1
    exact (List.takeWhile_append_dropWhile isPySpace
      ((l.dropWhile isPySpace).reverse)).symm
  have h1 : (((l.dropWhile isPySpace).reverse.dropWhile isPySpace).reverse).dropWhile
      isPySpace = ((l.dropWhile isPySpace).reverse.dropWhile isPySpace).reverse :=
    dropWhile_fix_of_append isPySpace _ _ (by rw [← hpre]; exact hufix)
  unfold stripChars
  rw [h1, List.reverse_reverse, dropWhile_idem]

/-- Trimming is idempotent, so stored (already trimmed) author names are
fixed points of the trim. -/
theorem pyStrip_idem (s : String) : pyStrip (pyStrip s) = pyStrip s :=
  congrArg String.mk (stripChars_idem s.data)

/-- The author loop preserves the deduplication invariant: new rows are
stored trimmed, and the lookup-before-insert plus the UNIQUE constraint
keep names pairwise distinct. -/
theorem authorsLoop_inv (book_id : String) (names : List String) (st : DBState)
    (faults : List Bool) (ids : List String) (st' : DBState) (f' : List Bool)
    (i' : List String)
    (h : authorsLoop book_id st faults ids names = .ok (st', f', i'))
    (hinv : authorsInv st) : authorsInv st' := by
  induction names generalizing st faults ids with
  | nil =>
    rw [authorsLoop] at h
    cases h
    exact hinv
  | cons n rest ih =>
    rw [authorsLoop] at h
    dsimp only at h
    split at h
    · exact Except.noConfusion h
    · split at h
      · split at h
        · exact Except.noConfusion h
        · exact ih _ _ _ h hinv
      · split at h
        · exact Except.noConfusion h
        · split at h
          · exact Except.noConfusion h
          · rename_i hany h3
            split at h
            · exact Except.noConfusion h
            · apply ih _ _ _ h
              constructor
              · intro a ha
                rcases List.mem_append.mp ha with ha | ha
                · exact hinv.1 a ha
                · rw [List.mem_singleton] at ha
                  subst ha
                  exact pyStrip_idem n
              · rw [List.pairwise_append]
                refine ⟨hinv.2, by simp, ?_⟩
                intro a ha b hb
                rw [List.mem_singleton] at hb
                subst hb
                rw [Bool.not_eq_true, List.any_eq_false] at h3
                have hcond := h3 a ha
                simp only [Bool.or_eq_true, not_or, beq_iff_eq] at hcond
                exact hcond.2

/-- Claim C3 (amended): author names are trimmed before lookup and before
storage, so resolving two author names equal after trimming behaves
identically and the authors table keeps exactly one row per distinct
trimmed name (stored names are trimmed and pairwise distinct even after
trimming); category names, by contrast, are stored verbatim, untrimmed. -/
theorem author_names_trimmed_categories_verbatim :
    (∀ (st : DBState) (faults : List Bool) (ids : List String)
        (book_id : String) (n1 n2 : String) (r : List String),
        pyStrip n1 = pyStrip n2 →
        handle_authors st faults ids book_id (some (n1 :: r)) =
          handle_authors st faults ids book_id (some (n2 :: r))) ∧
    (∀ (st : DBState) (faults : List Bool) (ids : List String)
        (book_id : String) (authors : Option (List String)) (st' : DBState)
        (f' : List Bool) (i' : List String), authorsInv st →
        handle_authors st faults ids book_id authors = .ok (st', f', i') →
        (∀ a ∈ st'.authors, pyStrip a.name = a.name) ∧
        List.Pairwise (fun a b => pyStrip a.name ≠ pyStrip b.name) st'.authors) ∧
    (∀ (st : DBState) (faults : List Bool) (ids : List String)
        (book_id : String) (names : List String) (st' : DBState)
        (f' : List Bool) (i' : List String),
        handle_categories st faults ids book_id (some names) = .ok (st', f', i') →
        ∀ c ∈ st'.categories, c ∈ st.categories ∨ c.name ∈ names) := by
  refine ⟨?_, ?_, ?_⟩
  · intro st faults ids book_id n1 n2 r hn
    unfold handle_authors
    dsimp only
    rw [authorsLoop]
    dsimp only
    rw [hn]
    conv_rhs => rw [authorsLoop]
  · intro st faults ids book_id authors st' f' i' hinv h
    have hinv' : authorsInv st' := by
      unfold handle_authors at h
      split at h
      · cases h
        exact hinv
      · cases h
        exact hinv
      · exact authorsLoop_inv _ _ _ _ _ _ _ _ h hinv
    refine ⟨hinv'.1, ?_⟩
    refine hinv'.2.imp_of_mem ?_
    intro a b ha hb hab
    rw [hinv'.1 a ha, hinv'.1 b hb]
    exact hab
  · intro st faults ids book_id names st' f' i' h
    cases names with
    | nil =>
      unfold handle_categories at h
      cases h
      intro c hc
      exact Or.inl hc
    | cons n rest =>
      unfold handle_categories at h
      dsimp only at h
      obtain ⟨-, -, -, ⟨exC, hC, hCn⟩, -⟩ :=
        categoriesLoop_shape _ _ _ _ _ _ _ _ h
      intro c hc
      rw [hC] at hc
      rcases List.mem_append.mp hc with hc | hc
      · exact Or.inl hc
      · exact Or.inr (hCn c hc)

/-- Witness for C3: the padded and unpadded Jane Doe resolve identically;
after importing Jane Doe the authors table is trimmed and deduplicated
under trimming; after importing the Sci-Fi category the stored name is the
verbatim input. -/
theorem author_names_trimmed_categories_verbatim_witness :
    (handle_authors DBState.empty [] ["a1"] "b1" (some [" Jane Doe "]) =
      handle_authors DBState.empty [] ["a1"] "b1" (some ["Jane Doe"])) ∧
    ((∀ a ∈ janeState.authors, pyStrip a.name = a.name) ∧
      List.Pairwise (fun a b => pyStrip a.name ≠ pyStrip b.name)
        janeState.authors) ∧
    (∀ c ∈ scifiState.categories, c ∈ DBState.empty.categories ∨
      c.name ∈ ["Sci-Fi"]) :=
  ⟨author_names_trimmed_categories_verbatim.1 DBState.empty [] ["a1"] "b1"
      " Jane Doe " "Jane Doe" [] (by decide),
   author_names_trimmed_categories_verbatim.2.1 DBState.empty [] ["a1"] "b1"
      (some ["Jane Doe"]) janeState [] []
      ⟨fun a ha => absurd ha (List.not_mem_nil a), List.Pairwise.nil⟩ rfl,
   author_names_trimmed_categories_verbatim.2.2 DBState.empty [] ["c1"] "b1"
      ["Sci-Fi"] scifiState [] [] rfl⟩
